import Mathlib

/-!
Shallow embedding of the blog-API request handlers
(`src/controllers/posts_controller.ts` and
`src/controllers/comments_controller.ts`) together with the parts of the
express-validator pipeline they use, and proofs about the embedded handlers.

Conventions:
 - MongoDB ObjectIds are modelled as `String` values; `objectIdIsValid`
   mirrors `Types.ObjectId.isValid` on strings (24 hex chars, or length 12).
 - The document store is a `DB` record of three lists (posts, comments,
   authors); `find`/`update`/`delete` by id act on the first matching
   element, as MongoDB does for the unique `_id` key.
 - Every handler is a pure function from its request data and the current
   `DB` to an `ApiResponse` and the resulting `DB`.  A JavaScript exception
   escaping the handler (caught by `expressAsyncHandler` and forwarded to
   the error middleware) is modelled with `Except.error`.
 - String sanitizers are implemented on `List Char` so that all
   definitions reduce inside the kernel.
-/

/-- JS / validator.js whitespace test used by `trim` (ASCII cases). -/
def isJsWhitespace (c : Char) : Bool :=
  c = ' ' || c = '\t' || c = '\n' || c = '\r'

/-- validator.js `trim()`: strip whitespace from both ends. -/
def jsTrim (s : String) : String :=
  String.mk (((s.toList.dropWhile isJsWhitespace).reverse.dropWhile isJsWhitespace).reverse)

/-- validator.js / JS `toLowerCase()` on the ASCII range. -/
def jsToLower (s : String) : String :=
  String.mk (s.toList.map Char.toLower)

/-- One character of validator.js `escape()`: the characters
`&`, `"`, `'`, `<`, `>`, `/`, `\` and backtick are replaced by HTML
entities; every other character is kept. -/
def escapeChar (c : Char) : List Char :=
  if c = '&' then "&amp;".toList
  else if c = '"' then "&quot;".toList
  else if c = Char.ofNat 39 then "&#x27;".toList
  else if c = '<' then "&lt;".toList
  else if c = '>' then "&gt;".toList
  else if c = '/' then "&#x2F;".toList
  else if c = '\\' then "&#x5C;".toList
  else if c = Char.ofNat 96 then "&#96;".toList
  else [c]

/-- validator.js `escape()`. -/
def escapeString (s : String) : String :=
  String.mk (s.toList.flatMap escapeChar)

/-- `text.replaceAll('\r', '')` from `convertToArrayOfParagraphs`. -/
def removeCarriageReturns (cs : List Char) : List Char :=
  cs.filter (fun c => c ≠ '\r')

/-- `text.replaceAll(/\n+/g, '\n')`: collapse every run of newlines to a
single newline (keeping the last newline of each run). -/
def collapseNewlineRuns : List Char → List Char
  | [] => []
  | [c] => [c]
  | c1 :: c2 :: rest =>
    if c1 = '\n' && c2 = '\n' then collapseNewlineRuns (c2 :: rest)
    else c1 :: collapseNewlineRuns (c2 :: rest)

/-- JS `text.split('\n')` (on an empty string it yields `[""]`). -/
def splitOnNewline : List Char → List (List Char)
  | [] => [[]]
  | c :: cs =>
    if c = '\n' then [] :: splitOnNewline cs
    else
      match splitOnNewline cs with
      | [] => [[c]]
      | p :: ps => (c :: p) :: ps

/-- Inverse of `splitOnNewline`: join paragraphs with single newlines. -/
def joinWithNewline : List (List Char) → List Char
  | [] => []
  | [p] => p
  | p :: ps => p ++ '\n' :: joinWithNewline ps

/-- `convertToArrayOfParagraphs` from the posts controller:
`text.replaceAll('\r', '').replaceAll(/\n+/g, '\n').split('\n')`. -/
def convertToArrayOfParagraphs (text : String) : List String :=
  (splitOnNewline (collapseNewlineRuns (removeCarriageReturns text.toList))).map String.mk

/-- The characters of the literal `"<script"`. -/
def scriptOpenTag : List Char := "<script".toList

/-- The characters of the literal `"</script>"`. -/
def scriptCloseTag : List Char := "</script>".toList

/-- Drop characters up to and including the first occurrence of
`</script>`; `none` when no closing tag occurs. -/
def dropThroughScriptClose : List Char → Option (List Char)
  | [] => none
  | c :: cs =>
    if scriptCloseTag.isPrefixOf (c :: cs) then some ((c :: cs).drop scriptCloseTag.length)
    else dropThroughScriptClose cs

/-- Fuelled scanner removing `<script ... </script>` spans. -/
def stripScriptAux : Nat → List Char → List Char
  | 0, cs => cs
  | fuel + 1, cs =>
    match cs with
    | [] => []
    | c :: rest =>
      if scriptOpenTag.isPrefixOf cs then
        match dropThroughScriptClose rest with
        | some rest2 => stripScriptAux fuel rest2
        | none => c :: stripScriptAux fuel rest
      else c :: stripScriptAux fuel rest

/-- Modelled from the spec: `removeDangerousScriptTags` is imported by the
comments controller from the posts controller, but its definition is not
among the provided sources.  The spec describes it as: strip substrings
matching an HTML `<script>...</script>` pattern from free text before
storage. -/
def removeDangerousScriptTags (text : String) : String :=
  String.mk (stripScriptAux text.toList.length text.toList)

/-- `Types.ObjectId.isValid` on strings: a 24-character hex string or any
12-character string. -/
def objectIdIsValid (s : String) : Bool :=
  (s.toList.length = 24 && s.toList.all (fun c => c.isDigit || (Char.ofNat 97 ≤ c && c ≤ 'f') || ('A' ≤ c && c ≤ 'F')))
    || s.toList.length = 12

example : jsTrim "  x y " = "x y" := by decide
example : jsToLower "AbC" = "abc" := by decide
example : escapeString "a<b&c" = "a&lt;b&amp;c" := by decide
example : convertToArrayOfParagraphs "a\r\n\n\nb\nc" = ["a", "b", "c"] := by decide
example : removeDangerousScriptTags "x<script>evil()</script>y" = "xy" := by decide
example : removeDangerousScriptTags "a < b & c" = "a < b & c" := by decide
example : objectIdIsValid "65068c32be2fd5ade9800662" = true := by decide
example : objectIdIsValid "xyz" = false := by decide

/-- A stored Post document (models/Post is not among the sources; fields
follow the controllers and the spec data model, `commentCount` per the
spec: integer maintained by the comment handler). -/
structure Post where
  _id : String
  author : String
  title : String
  timestamp : Nat
  category : String
  text : List String
  isPublished : Bool
  commentCount : Int
deriving Repr, DecidableEq

/-- A stored Comment document. -/
structure Comment where
  _id : String
  commenter : String
  post : String
  timestamp : Nat
  text : String
  replies : List String
deriving Repr, DecidableEq

/-- A stored Author document, per the Author model:
`name: { type: String, unique: true, required: true }`. -/
structure Author where
  _id : String
  name : String
deriving Repr, DecidableEq

/-- The three document collections. -/
structure DB where
  posts : List Post
  comments : List Comment
  authors : List Author
deriving Repr, DecidableEq

/-- The `ErrorMessage` shape of the posts controller. -/
structure ErrorMessage where
  message : String
  status : Nat
deriving Repr, DecidableEq

def INVALID_ID : ErrorMessage := { message := "Failed to fetch - invalid ID format", status := 400 }

def INVALID_QUERY : ErrorMessage := { message := "Failed to fetch - invalid query", status := 400 }

def DOES_NOT_EXIST : ErrorMessage := { message := "Failed to fetch - no resource with that ID", status := 404 }

/-- The Author document as raw field/value pairs, as stored by the Author
model: an `_id` and the single schema path `name`. -/
def Author.toDoc (a : Author) : List (String × String) :=
  [("_id", a._id), ("name", a.name)]

/-- Mongoose projection for the select string `"username -_id"` used by
`populate('commenter', 'username -_id')`: include the path `username`,
exclude `_id`. -/
def selectUsernameNoId (doc : List (String × String)) : List (String × String) :=
  doc.filter (fun kv => kv.fst == "username")

/-- A Comment whose `commenter` reference has been populated through the
projection above; `none` models populate resolving to `null` when no
Author document matches the reference. -/
structure PopulatedComment where
  _id : String
  commenter : Option (List (String × String))
  post : String
  timestamp : Nat
  text : String
  replies : List String
deriving Repr, DecidableEq

/-- JSON bodies the handlers can send. -/
inductive ApiBody where
  | error (e : ErrorMessage)
  | message (m : String)
  | validationErrors (errors : List String)
  | post (p : Post)
  | posts (ps : List Post)
  | comment (c : Comment)
  | popComment (c : PopulatedComment)
  | popComments (cs : List PopulatedComment)
deriving Repr, DecidableEq

def DATABASE_UPDATE_ERROR : ApiBody := .message "Error updating database"

/-- An HTTP response: status code plus JSON body. -/
structure ApiResponse where
  status : Nat
  body : ApiBody
deriving Repr, DecidableEq

/-- `findById` on a collection: first document whose key equals `id`. -/
def findByKey {α : Type} (key : α → String) (id : String) (l : List α) : Option α :=
  l.find? (fun a => key a == id)

/-- `findOneAndUpdate` / `findByIdAndUpdate`: rewrite the first document
whose key equals `id` with `f`, returning the rewritten document
(`new: true` semantics) and the new collection. -/
def updateFirst {α : Type} (key : α → String) (id : String) (f : α → α) : List α → Option α × List α
  | [] => (none, [])
  | a :: l =>
    if key a == id then (some (f a), f a :: l)
    else
      let r := updateFirst key id f l
      (r.1, a :: r.2)

/-- `findByIdAndDelete`: remove the first document whose key equals `id`,
returning the removed document and the new collection. -/
def removeFirst {α : Type} (key : α → String) (id : String) : List α → Option α × List α
  | [] => (none, [])
  | a :: l =>
    if key a == id then (some a, l)
    else
      let r := removeFirst key id l
      (r.1, a :: r.2)

theorem updateFirst_fst {α : Type} (key : α → String) (id : String) (f : α → α) (l : List α) :
    (updateFirst key id f l).1 = (findByKey key id l).map f := by
  induction l with
  | nil => rfl
  | cons a l ih =>
    simp only [updateFirst, findByKey, List.find?]
    by_cases h : key a == id
    · simp [h]
    · simp only [h, Bool.false_eq_true, if_false, cond_false]
      exact ih

theorem updateFirst_snd_none {α : Type} (key : α → String) (id : String) (f : α → α) (l : List α)
    (h : findByKey key id l = none) : (updateFirst key id f l).2 = l := by
  induction l with
  | nil => rfl
  | cons a l ih =>
    simp only [findByKey, List.find?] at h
    by_cases ha : key a == id
    · simp [ha] at h
    · simp only [ha, cond_false] at h
      simp only [updateFirst, ha, Bool.false_eq_true, if_false]
      rw [ih h]

theorem findByKey_updateFirst_self {α : Type} (key : α → String) (id : String) (f : α → α)
    (l : List α) (hf : ∀ a, key a = id → key (f a) = key a) :
    findByKey key id (updateFirst key id f l).2 = (findByKey key id l).map f := by
  induction l with
  | nil => rfl
  | cons a l ih =>
    by_cases h : key a == id
    · simp only [updateFirst, h, if_true, findByKey, List.find?]
      have hkey : key a = id := by simpa using h
      have : (key (f a) == id) = true := by rw [hf a hkey]; exact h
      simp [this, h]
    · simp only [updateFirst, h, Bool.false_eq_true, if_false, findByKey, List.find?, cond_false]
      simpa [findByKey, h] using ih

theorem findByKey_updateFirst_other {α : Type} (key : α → String) (id id' : String) (f : α → α)
    (l : List α) (hf : ∀ a, key a = id → key (f a) = key a) (hne : id' ≠ id) :
    findByKey key id' (updateFirst key id f l).2 = findByKey key id' l := by
  induction l with
  | nil => rfl
  | cons a l ih =>
    by_cases h : key a == id
    · have hkey : key a = id := by simpa using h
      have h1 : (key (f a) == id') = false := by
        simp [hf a hkey, hkey]
        exact fun hc => hne hc.symm
      have h2 : (key a == id') = false := by
        simp [hkey]
        exact fun hc => hne hc.symm
      simp only [updateFirst, h, if_true, findByKey, List.find?, h1, h2, cond_false]
    · simp only [updateFirst, h, Bool.false_eq_true, if_false, findByKey, List.find?]
      by_cases h' : key a == id'
      · simp [h']
      · simp only [h', cond_false]
        exact ih

theorem removeFirst_fst {α : Type} (key : α → String) (id : String) (l : List α) :
    (removeFirst key id l).1 = findByKey key id l := by
  induction l with
  | nil => rfl
  | cons a l ih =>
    simp only [removeFirst, findByKey, List.find?]
    by_cases h : key a == id
    · simp [h]
    · simp only [h, Bool.false_eq_true, if_false, cond_false]
      exact ih

theorem removeFirst_snd_none {α : Type} (key : α → String) (id : String) (l : List α)
    (h : findByKey key id l = none) : (removeFirst key id l).2 = l := by
  induction l with
  | nil => rfl
  | cons a l ih =>
    simp only [findByKey, List.find?] at h
    by_cases ha : key a == id
    · simp [ha] at h
    · simp only [ha, cond_false] at h
      simp only [removeFirst, ha, Bool.false_eq_true, if_false]
      rw [ih h]

theorem findByKey_removeFirst_other {α : Type} (key : α → String) (id id' : String)
    (l : List α) (hne : id' ≠ id) :
    findByKey key id' (removeFirst key id l).2 = findByKey key id' l := by
  induction l with
  | nil => rfl
  | cons a l ih =>
    by_cases h : key a == id
    · have hkey : key a = id := by simpa using h
      have h2 : (key a == id') = false := by
        simp [hkey]
        exact fun hc => hne hc.symm
      simp only [removeFirst, h, if_true, findByKey, List.find?, h2, cond_false]
    · simp only [removeFirst, h, Bool.false_eq_true, if_false, findByKey, List.find?]
      by_cases h' : key a == id'
      · simp [h']
      · simp only [h', cond_false]
        exact ih

/-- Modelled from the spec: `categories` is exported by models/Post, which
is not among the provided sources; the spec says only that `category` must
belong to a fixed enumerated set, so a concrete fixed set is used here (no
claim depends on its elements). -/
def categories : List String := ["html", "css", "javascript", "other"]

/-- express-validator passes `''` to string validators and sanitizers when
the field is absent from the request body. -/
def rawField (v : Option String) : String := v.getD ""

/-- Sanitized value of the `title` chain: `.trim().notEmpty().escape()`. -/
def sanitizeTitle (raw : String) : String := escapeString (jsTrim raw)

/-- The `notEmpty()` assertion of the `title` chain fails. -/
def titleError (raw : String) : Bool := jsTrim raw == ""

/-- Sanitized value of the `category` chain: `.toLowerCase().isIn(categories)`. -/
def sanitizeCategory (raw : String) : String := jsToLower raw

/-- The `isIn(categories)` assertion of the `category` chain fails. -/
def categoryError (raw : String) : Bool := !(categories.contains (jsToLower raw))

/-- Sanitized value of the posts `text` chain:
`.trim().notEmpty().escape().customSanitizer(convertToArrayOfParagraphs)`. -/
def sanitizeArticleText (raw : String) : List String :=
  convertToArrayOfParagraphs (escapeString (jsTrim raw))

/-- The `notEmpty()` assertion of the posts `text` chain fails. -/
def articleTextError (raw : String) : Bool := jsTrim raw == ""

/-- Sanitized value of the `isPublished` chain:
`.trim().toLowerCase().escape().customSanitizer(s => s === 'yes')`. -/
def sanitizeIsPublished (raw : String) : Bool :=
  escapeString (jsToLower (jsTrim raw)) == "yes"

/-- Sanitized value of the `postNewComment` text chain:
`.trim().notEmpty().escape().customSanitizer(removeDangerousScriptTags)`. -/
def sanitizeNewCommentText (raw : String) : String :=
  removeDangerousScriptTags (escapeString (jsTrim raw))

/-- Sanitized value of the `editComment` text chain:
`.trim().notEmpty().customSanitizer(removeDangerousScriptTags)` — note it
has no `.escape()` step. -/
def sanitizeEditCommentText (raw : String) : String :=
  removeDangerousScriptTags (jsTrim raw)

/-- The `notEmpty()` assertion of a comment `text` chain fails. -/
def commentTextError (raw : String) : Bool := jsTrim raw == ""

/-- The raw form body of the posts create/edit endpoints; `none` models a
field absent from the request body. -/
structure PostFormBody where
  title : Option String
  category : Option String
  text : Option String
  isPublished : Option String
deriving Repr, DecidableEq

/-- `validationResult(req).array()` for `postNewPost`: every field is
required, so absent fields are validated as the empty string. -/
def postNewPostErrors (b : PostFormBody) : List String :=
  (if titleError (rawField b.title) then ["Title must not be empty"] else [])
    ++ (if categoryError (rawField b.category) then ["Category must be one of the listed options"] else [])
    ++ (if articleTextError (rawField b.text) then ["Article cannot be empty"] else [])

/-- `validationResult(req).array()` for `editPost`: every chain carries
`.optional()`, so a chain's assertions run only when its field is present. -/
def editPostErrors (b : PostFormBody) : List String :=
  (match b.title with
   | none => []
   | some t => if titleError t then ["Title must not be empty"] else [])
    ++ (match b.category with
        | none => []
        | some c => if categoryError c then ["Category must be one of the listed options"] else [])
    ++ (match b.text with
        | none => []
        | some t => if articleTextError t then ["Article cannot be empty"] else [])

/-- The MongoDB `$inc` update on `commentCount`. -/
def incCommentCount (d : Int) (p : Post) : Post := { p with commentCount := p.commentCount + d }

def findPost (id : String) (db : DB) : Option Post := findByKey Post._id id db.posts

def findComment (id : String) (db : DB) : Option Comment := findByKey Comment._id id db.comments

def findAuthor (id : String) (db : DB) : Option Author := findByKey Author._id id db.authors

/-- Sort by `{ timestamp: -1 }` (newest first). -/
def postsByNewest (ps : List Post) : List Post :=
  List.insertionSort (fun a b => b.timestamp ≤ a.timestamp) ps

/-- Sort by `{ timestamp: -1 }` (newest first). -/
def commentsByNewest (cs : List Comment) : List Comment :=
  List.insertionSort (fun a b => b.timestamp ≤ a.timestamp) cs

/-- `getAllPosts`. -/
def getAllPosts (db : DB) : ApiResponse × DB :=
  ({ status := 200, body := .posts (postsByNewest db.posts) }, db)

/-- `getSpecificPost`. -/
def getSpecificPost (postID : String) (db : DB) : ApiResponse × DB :=
  if !objectIdIsValid postID then ({ status := 400, body := .error INVALID_ID }, db)
  else
    match findPost postID db with
    | none => ({ status := 404, body := .error DOES_NOT_EXIST }, db)
    | some post => ({ status := 200, body := .post post }, db)

/-- `postNewPost`.  `genId` is the ObjectId mongoose generates for the new
document and `now` the value of `new Date()`.  The stored `commentCount`
is 0 — modelled from the spec ("commentCount implicitly 0"), as the Post
model holding the schema default is not among the sources. -/
def postNewPost (b : PostFormBody) (genId : String) (now : Nat) (db : DB) : ApiResponse × DB :=
  let errors := postNewPostErrors b
  if errors ≠ [] then ({ status := 200, body := .validationErrors errors }, db)
  else
    let post : Post :=
      { _id := genId,
        author := "65068c32be2fd5ade9800662",
        title := sanitizeTitle (rawField b.title),
        timestamp := now,
        category := sanitizeCategory (rawField b.category),
        text := sanitizeArticleText (rawField b.text),
        isPublished := sanitizeIsPublished (rawField b.isPublished),
        commentCount := 0 }
    ({ status := 200, body := .post post }, { db with posts := db.posts ++ [post] })

/-- The `postWithEdits` document of `editPost`: keeps `_id`, `author` and
`timestamp` from the stored post and falls back to stored values for
absent fields.  Its `commentCount` is the stored one — modelled from the
spec ("preserving identifier, author, timestamp, and commentCount"; "not
directly client-settable"), as the Post model that fixes how
`findByIdAndUpdate` treats the document's absent `commentCount` path is
not among the sources. -/
def mergePostEdits (existingPost : Post) (b : PostFormBody) : Post :=
  { _id := existingPost._id,
    author := existingPost.author,
    title := (b.title.map sanitizeTitle).getD existingPost.title,
    timestamp := existingPost.timestamp,
    category := (b.category.map sanitizeCategory).getD existingPost.category,
    text := (b.text.map sanitizeArticleText).getD existingPost.text,
    isPublished := (b.isPublished.map sanitizeIsPublished).getD existingPost.isPublished,
    commentCount := existingPost.commentCount }

/-- `editPost`. -/
def editPost (postID : String) (b : PostFormBody) (db : DB) : ApiResponse × DB :=
  if !objectIdIsValid postID then ({ status := 400, body := .error INVALID_ID }, db)
  else
    let errors := editPostErrors b
    if errors ≠ [] then ({ status := 200, body := .validationErrors errors }, db)
    else
      match findPost postID db with
      | none => ({ status := 404, body := .error DOES_NOT_EXIST }, db)
      | some existingPost =>
        let postWithEdits := mergePostEdits existingPost b
        let r := updateFirst Post._id postID (fun _ => postWithEdits) db.posts
        ({ status := 200, body := .post postWithEdits }, { db with posts := r.2 })

/-- `publishPost`. -/
def publishPost (postID : String) (publish : Option String) (db : DB) : ApiResponse × DB :=
  if !objectIdIsValid postID || !(publish == some "true" || publish == some "false") then
    let message := if !objectIdIsValid postID then INVALID_ID else INVALID_QUERY
    ({ status := 400, body := .error message }, db)
  else
    let newPublishedStatus := publish == some "true"
    let r := updateFirst Post._id postID (fun p => { p with isPublished := newPublishedStatus }) db.posts
    match r.1 with
    | none => ({ status := 404, body := .error DOES_NOT_EXIST }, { db with posts := r.2 })
    | some editedPost => ({ status := 200, body := .post editedPost }, { db with posts := r.2 })

/-- `deletePost`. -/
def deletePost (postID : String) (db : DB) : ApiResponse × DB :=
  if !objectIdIsValid postID then ({ status := 400, body := .error INVALID_ID }, db)
  else
    let r := removeFirst Post._id postID db.posts
    match r.1 with
    | none => ({ status := 404, body := .error DOES_NOT_EXIST }, { db with posts := r.2 })
    | some deletedPost => ({ status := 200, body := .post deletedPost }, { db with posts := r.2 })

/-- `populate('commenter', 'username -_id')` on one comment: resolve the
`commenter` reference in the authors collection (modelled from the spec:
the Comment model fixing the reference's target collection is not among
the sources; the spec states Comment.commenter → Author) and project the
document through the select string. -/
def populateCommenter (db : DB) (c : Comment) : PopulatedComment :=
  { _id := c._id,
    commenter := (findAuthor c.commenter db).map (fun a => selectUsernameNoId a.toDoc),
    post := c.post,
    timestamp := c.timestamp,
    text := c.text,
    replies := c.replies }

/-- `getAllComments`.  The search filter includes `post` / `commenter`
clauses only when the corresponding request parameter is present. -/
def getAllComments (postID readerID : Option String) (db : DB) : ApiResponse × DB :=
  let searchFilter : Comment → Bool := fun c =>
    (match postID with
     | some p => c.post == p
     | none => true)
      && (match readerID with
          | some r => c.commenter == r
          | none => true)
  let allComments := commentsByNewest (db.comments.filter searchFilter)
  ({ status := 200, body := .popComments (allComments.map (populateCommenter db)) }, db)

/-- `getSpecificComment`. -/
def getSpecificComment (commentID : String) (db : DB) : ApiResponse × DB :=
  if !objectIdIsValid commentID then ({ status := 400, body := .error INVALID_ID }, db)
  else
    match findComment commentID db with
    | none => ({ status := 404, body := .error DOES_NOT_EXIST }, db)
    | some comment => ({ status := 200, body := .comment comment }, db)

/-- The new Comment document built by `postNewComment`: `new Comment({...})`
with empty replies and the current timestamp. -/
def newCommentDoc (postID commenterID : String) (text : Option String) (genId : String)
    (now : Nat) : Comment :=
  { _id := genId,
    commenter := commenterID,
    post := postID,
    timestamp := now,
    text := sanitizeNewCommentText (rawField text),
    replies := [] }

/-- The `commentWithEdits` document of `editComment`: replaces `text`,
preserving `_id`, `commenter`, `post`, `timestamp` and `replies`. -/
def mergeCommentEdit (existingComment : Comment) (text : Option String) : Comment :=
  { _id := existingComment._id,
    commenter := existingComment.commenter,
    post := existingComment.post,
    timestamp := existingComment.timestamp,
    text := sanitizeEditCommentText (rawField text),
    replies := existingComment.replies }

/-- `postNewComment`.  After validation passes, the handler constructs
`new Types.ObjectId(...)` from the commenter query parameter and the post
path parameter; on a malformed string this constructor throws a BSONError,
modelled as `Except.error` (there is no isValid check in this handler).
`comment.save()` resolves to the saved document (its failures throw), and
`Post.findOneAndUpdate({_id}, {$inc: {commentCount: 1}}, {new: true})`
resolves to the updated post or `null`; the response is 201 with the
populated comment when both are non-null, else 500. -/
def postNewComment (postID commenterID : String) (text : Option String) (genId : String)
    (now : Nat) (db : DB) : Except String (ApiResponse × DB) :=
  let errors := if commentTextError (rawField text) then ["Comment cannot be empty"] else []
  if errors ≠ [] then .ok ({ status := 200, body := .validationErrors errors }, db)
  else
    if !objectIdIsValid commenterID then .error "BSONError"
    else if !objectIdIsValid postID then .error "BSONError"
    else
      let comment := newCommentDoc postID commenterID text genId now
      let savedComment : Option Comment := some comment
      let db1 : DB := { db with comments := db.comments ++ [comment] }
      let r := updateFirst Post._id postID (incCommentCount 1) db1.posts
      let updatedPost : Option Post := r.1
      let db2 : DB := { db1 with posts := r.2 }
      match savedComment, updatedPost with
      | some saved, some _ => .ok ({ status := 201, body := .popComment (populateCommenter db2 saved) }, db2)
      | _, _ => .ok ({ status := 500, body := DATABASE_UPDATE_ERROR }, db2)

/-- `editComment`. -/
def editComment (commentID : String) (text : Option String) (db : DB) : ApiResponse × DB :=
  if !objectIdIsValid commentID then ({ status := 400, body := .error INVALID_ID }, db)
  else
    let errors := if commentTextError (rawField text) then ["Comment cannot be empty"] else []
    if errors ≠ [] then ({ status := 200, body := .validationErrors errors }, db)
    else
      match findComment commentID db with
      | none => ({ status := 404, body := .error DOES_NOT_EXIST }, db)
      | some existingComment =>
        let commentWithEdits := mergeCommentEdit existingComment text
        let r := updateFirst Comment._id commentID (fun _ => commentWithEdits) db.comments
        ({ status := 200, body := .comment commentWithEdits }, { db with comments := r.2 })

/-- `deleteComment`.  After a successful delete, the parent post's
`commentCount` is decremented best-effort (result not checked). -/
def deleteComment (commentID : String) (db : DB) : ApiResponse × DB :=
  if !objectIdIsValid commentID then ({ status := 400, body := .error INVALID_ID }, db)
  else
    let r := removeFirst Comment._id commentID db.comments
    match r.1 with
    | none => ({ status := 404, body := .error DOES_NOT_EXIST }, { db with comments := r.2 })
    | some deletedComment =>
      let db1 : DB := { db with comments := r.2 }
      let r2 := updateFirst Post._id deletedComment.post (incCommentCount (-1)) db1.posts
      ({ status := 204, body := .comment deletedComment }, { db1 with posts := r2.2 })

theorem findByKey_removeFirst_self {α : Type} (key : α → String) (id : String) (l : List α)
    (hnd : (l.map key).Nodup) : findByKey key id (removeFirst key id l).2 = none := by
  induction l with
  | nil => rfl
  | cons a l ih =>
    simp only [List.map_cons, List.nodup_cons] at hnd
    by_cases h : key a == id
    · have hkey : key a = id := by simpa using h
      simp only [removeFirst, h, if_true, findByKey]
      rw [List.find?_eq_none]
      intro x hx
      simp only [beq_iff_eq]
      intro hxid
      exact hnd.1 (by rw [← hkey] at hxid; exact hxid ▸ List.mem_map_of_mem key hx)
    · simp only [removeFirst, h, Bool.false_eq_true, if_false, findByKey, List.find?, h, cond_false]
      exact ih hnd.2

theorem findByKey_append_left {α : Type} (key : α → String) (id : String) (l l2 : List α) (a : α)
    (h : findByKey key id l = some a) : findByKey key id (l ++ l2) = some a := by
  simp only [findByKey, List.find?_append] at *
  rw [h]
  rfl

/-- No post present both before and after changed its `commentCount`. -/
def preservesCommentCounts (db db2 : DB) : Prop :=
  ∀ id P P2, findPost id db = some P → findPost id db2 = some P2 →
    P2.commentCount = P.commentCount

/- Concrete fixtures used by witnesses and counterexamples. -/

def pid1 : String := "aaaaaaaaaaaaaaaaaaaaaaaa"

def cid1 : String := "bbbbbbbbbbbbbbbbbbbbbbbb"

def aid1 : String := "cccccccccccccccccccccccc"

def gid1 : String := "dddddddddddddddddddddddd"

def postEx : Post :=
  { _id := pid1, author := "65068c32be2fd5ade9800662", title := "T", timestamp := 5,
    category := "html", text := ["p"], isPublished := false, commentCount := 3 }

def authorEx : Author := { _id := aid1, name := "Alice" }

def commentEx : Comment :=
  { _id := cid1, commenter := aid1, post := pid1, timestamp := 7, text := "hi", replies := [] }

def dbEx : DB := { posts := [postEx], comments := [commentEx], authors := [authorEx] }

instance {ε α : Type} [DecidableEq ε] [DecidableEq α] : DecidableEq (Except ε α) := fun a b =>
  match a, b with
  | .ok x, .ok y => if h : x = y then isTrue (by rw [h]) else isFalse (by intro hc; cases hc; exact h rfl)
  | .error x, .error y => if h : x = y then isTrue (by rw [h]) else isFalse (by intro hc; cases hc; exact h rfl)
  | .ok _, .error _ => isFalse (by intro hc; cases hc)
  | .error _, .ok _ => isFalse (by intro hc; cases hc)

example : objectIdIsValid pid1 = true := by decide
example : objectIdIsValid aid1 = true := by decide
example : (getSpecificPost "bad" dbEx).1.status = 400 := by decide
example : (getSpecificPost pid1 dbEx).1 = { status := 200, body := .post postEx } := by decide
example :
    postNewComment pid1 aid1 (some "hi") gid1 9 { posts := [], comments := [], authors := [] }
      = .ok ({ status := 500, body := DATABASE_UPDATE_ERROR },
          { posts := [],
            comments := [{ _id := gid1, commenter := aid1, post := pid1, timestamp := 9,
                           text := "hi", replies := [] }],
            authors := [] }) := by decide
example : (deleteComment cid1 dbEx).2.posts = [{ postEx with commentCount := 2 }] := by decide

theorem findByKey_some_key {α : Type} (key : α → String) (id : String) (l : List α) (a : α)
    (h : findByKey key id l = some a) : key a = id := by
  simp only [findByKey] at h
  have := List.find?_some h
  simpa using this

theorem preservesCommentCounts_of_posts_eq (db db2 : DB) (h : db2.posts = db.posts) :
    preservesCommentCounts db db2 := by
  intro id P P2 h1 h2
  simp only [findPost, findByKey] at h1 h2
  rw [h, h1] at h2
  cases h2
  rfl

/-- `postNewComment`, on valid identifiers and passing text, with the parent
post present: responds 201 and increments exactly the parent's
`commentCount` by 1. -/
theorem postNewComment_increments (pid cid : String) (text : Option String) (gen : String)
    (now : Nat) (db : DB) (P : Post)
    (hpid : objectIdIsValid pid = true) (hcid : objectIdIsValid cid = true)
    (htext : commentTextError (rawField text) = false)
    (hfind : findPost pid db = some P) :
    ∃ resp db2, postNewComment pid cid text gen now db = .ok (resp, db2)
      ∧ resp.status = 201
      ∧ findPost pid db2 = some (incCommentCount 1 P)
      ∧ (∀ id2, id2 ≠ pid → findPost id2 db2 = findPost id2 db) := by
  have hr1 : (updateFirst Post._id pid (incCommentCount 1) db.posts).1
      = some (incCommentCount 1 P) := by
    rw [updateFirst_fst]
    simp only [findPost] at hfind
    rw [hfind]
    rfl
  have hEq : postNewComment pid cid text gen now db
      = .ok ({ status := 201,
               body := .popComment (populateCommenter
                 { posts := (updateFirst Post._id pid (incCommentCount 1) db.posts).2,
                   comments := db.comments ++ [newCommentDoc pid cid text gen now],
                   authors := db.authors } (newCommentDoc pid cid text gen now)) },
             { posts := (updateFirst Post._id pid (incCommentCount 1) db.posts).2,
               comments := db.comments ++ [newCommentDoc pid cid text gen now],
               authors := db.authors }) := by
    simp [postNewComment, htext, hcid, hpid, hr1]
  refine ⟨_, _, hEq, rfl, ?_, ?_⟩
  · show findPost pid _ = _
    simp only [findPost]
    rw [findByKey_updateFirst_self Post._id pid (incCommentCount 1) db.posts (fun a _ => rfl)]
    simp only [findPost] at hfind
    rw [hfind]
    rfl
  · intro id2 hne
    simp only [findPost]
    exact findByKey_updateFirst_other Post._id pid id2 (incCommentCount 1) db.posts (fun a _ => rfl) hne

/-- `deleteComment`, on a valid identifier with the comment present and its
parent post present: responds 204 and decrements exactly the parent's
`commentCount` by 1. -/
theorem deleteComment_decrements (cid : String) (db : DB) (C : Comment) (P : Post)
    (hcid : objectIdIsValid cid = true)
    (hfindc : findComment cid db = some C)
    (hfindp : findPost C.post db = some P) :
    ∃ db2, deleteComment cid db = ({ status := 204, body := .comment C }, db2)
      ∧ findPost C.post db2 = some (incCommentCount (-1) P)
      ∧ (∀ id2, id2 ≠ C.post → findPost id2 db2 = findPost id2 db) := by
  have hr : (removeFirst Comment._id cid db.comments).1 = some C := by
    rw [removeFirst_fst]; exact hfindc
  have hEq : deleteComment cid db
      = ({ status := 204, body := .comment C },
         { posts := (updateFirst Post._id C.post (incCommentCount (-1)) db.posts).2,
           comments := (removeFirst Comment._id cid db.comments).2,
           authors := db.authors }) := by
    simp [deleteComment, hcid, hr]
  refine ⟨_, hEq, ?_, ?_⟩
  · simp only [findPost]
    rw [findByKey_updateFirst_self Post._id C.post (incCommentCount (-1)) db.posts (fun a _ => rfl)]
    simp only [findPost] at hfindp
    rw [hfindp]; rfl
  · intro id2 hne
    simp only [findPost]
    exact findByKey_updateFirst_other Post._id C.post id2 (incCommentCount (-1)) db.posts (fun a _ => rfl) hne

theorem frame_getAllPosts (db : DB) : preservesCommentCounts db (getAllPosts db).2 :=
  preservesCommentCounts_of_posts_eq db _ rfl

theorem frame_getSpecificPost (id : String) (db : DB) :
    preservesCommentCounts db (getSpecificPost id db).2 := by
  apply preservesCommentCounts_of_posts_eq
  unfold getSpecificPost
  split
  · rfl
  · split <;> rfl

theorem frame_postNewPost (b : PostFormBody) (gen : String) (now : Nat) (db : DB) :
    preservesCommentCounts db (postNewPost b gen now db).2 := by
  intro id P P2 h1 h2
  simp only [postNewPost] at h2
  split at h2
  · simp only [findPost, findByKey] at h1 h2
    rw [h1] at h2; cases h2; rfl
  · simp only [findPost] at h1 h2
    rw [findByKey_append_left Post._id id db.posts _ P h1] at h2
    cases h2; rfl

theorem frame_editPost (pid : String) (b : PostFormBody) (db : DB) :
    preservesCommentCounts db (editPost pid b db).2 := by
  intro id P P2 h1 h2
  simp only [editPost] at h2
  split at h2
  · simp only [findPost, findByKey] at h1 h2; rw [h1] at h2; cases h2; rfl
  · split at h2
    · simp only [findPost, findByKey] at h1 h2; rw [h1] at h2; cases h2; rfl
    · split at h2
      case _ hm =>
        simp only [findPost, findByKey] at h1 h2; rw [h1] at h2; cases h2; rfl
      case _ existing hm =>
        by_cases hid : id = pid
        · subst hid
          simp only [findPost] at h1 h2 hm
          rw [findByKey_updateFirst_self Post._id id (fun _ => mergePostEdits existing b) db.posts
            (fun a ha => by
              rw [show (mergePostEdits existing b)._id = existing._id from rfl,
                findByKey_some_key Post._id id db.posts existing hm, ha])] at h2
          rw [hm] at h1 h2
          cases h1
          cases h2
          rfl
        · simp only [findPost] at h1 h2
          rw [findByKey_updateFirst_other Post._id pid id (fun _ => mergePostEdits existing b) db.posts
            (fun a ha => by
              rw [show (mergePostEdits existing b)._id = existing._id from rfl,
                findByKey_some_key Post._id pid db.posts existing hm, ha]) hid] at h2
          rw [h1] at h2; cases h2; rfl

theorem frame_publishPost (pid : String) (pub : Option String) (db : DB) :
    preservesCommentCounts db (publishPost pid pub db).2 := by
  intro id P P2 h1 h2
  simp only [publishPost] at h2
  split at h2
  · simp only [findPost, findByKey] at h1 h2; rw [h1] at h2; cases h2; rfl
  · split at h2 <;>
    · by_cases hid : id = pid
      · subst hid
        simp only [findPost] at h1 h2
        rw [findByKey_updateFirst_self Post._id id
          (fun p => { p with isPublished := pub == some "true" }) db.posts (fun a _ => rfl)] at h2
        rw [h1] at h2; cases h2; rfl
      · simp only [findPost] at h1 h2
        rw [findByKey_updateFirst_other Post._id pid id
          (fun p => { p with isPublished := pub == some "true" }) db.posts (fun a _ => rfl) hid] at h2
        rw [h1] at h2; cases h2; rfl

theorem frame_deletePost (pid : String) (db : DB) (hnd : (db.posts.map Post._id).Nodup) :
    preservesCommentCounts db (deletePost pid db).2 := by
  intro id P P2 h1 h2
  simp only [deletePost] at h2
  split at h2
  · simp only [findPost, findByKey] at h1 h2; rw [h1] at h2; cases h2; rfl
  · split at h2 <;>
    · by_cases hid : id = pid
      · subst hid
        simp only [findPost] at h2
        rw [findByKey_removeFirst_self Post._id id db.posts hnd] at h2
        cases h2
      · simp only [findPost] at h1 h2
        rw [findByKey_removeFirst_other Post._id pid id db.posts hid] at h2
        rw [h1] at h2; cases h2; rfl

theorem frame_getAllComments (p r : Option String) (db : DB) :
    preservesCommentCounts db (getAllComments p r db).2 :=
  preservesCommentCounts_of_posts_eq db _ rfl

theorem frame_getSpecificComment (id : String) (db : DB) :
    preservesCommentCounts db (getSpecificComment id db).2 := by
  apply preservesCommentCounts_of_posts_eq
  unfold getSpecificComment
  split
  · rfl
  · split <;> rfl

theorem frame_editComment (id : String) (text : Option String) (db : DB) :
    preservesCommentCounts db (editComment id text db).2 := by
  apply preservesCommentCounts_of_posts_eq
  simp only [editComment]
  split
  · rfl
  · split
    · rfl
    · split
      · rfl
      · split <;> rfl

/-- C1 (amended): for every malformed identifier, the identifier-taking
endpoints getPost, editPost, publishPost, deletePost, getComment,
editComment and deleteComment respond 400 with the InvalidId error and
leave the store unchanged; createComment, however, performs no identifier
validation: with text that passes validation, a malformed commenter or
post identifier makes the ObjectId constructor throw (forwarded to the
error middleware), not a 400 InvalidId response. -/
theorem C1_invalidId_before_persistence (id : String) (db : DB) (b : PostFormBody)
    (pub : Option String) (text : Option String) (commenterID gen : String) (now : Nat)
    (h : objectIdIsValid id = false) :
    getSpecificPost id db = ({ status := 400, body := .error INVALID_ID }, db)
    ∧ editPost id b db = ({ status := 400, body := .error INVALID_ID }, db)
    ∧ publishPost id pub db = ({ status := 400, body := .error INVALID_ID }, db)
    ∧ deletePost id db = ({ status := 400, body := .error INVALID_ID }, db)
    ∧ getSpecificComment id db = ({ status := 400, body := .error INVALID_ID }, db)
    ∧ editComment id text db = ({ status := 400, body := .error INVALID_ID }, db)
    ∧ deleteComment id db = ({ status := 400, body := .error INVALID_ID }, db)
    ∧ (commentTextError (rawField text) = false → objectIdIsValid commenterID = true →
        postNewComment id commenterID text gen now db = .error "BSONError") := by
  refine ⟨?_, ?_, ?_, ?_, ?_, ?_, ?_, ?_⟩
  · simp [getSpecificPost, h]
  · simp [editPost, h]
  · simp [publishPost, h]
  · simp [deletePost, h]
  · simp [getSpecificComment, h]
  · simp [editComment, h]
  · simp [deleteComment, h]
  · intro ht hc
    simp [postNewComment, ht, hc, h]

/-- C1 witness: concrete instance of the amended claim at the malformed
identifier `"xyz"`. -/
theorem C1_invalidId_witness :
    objectIdIsValid "xyz" = false
    ∧ getSpecificPost "xyz" dbEx = ({ status := 400, body := .error INVALID_ID }, dbEx)
    ∧ postNewComment "xyz" aid1 (some "hi") gid1 0 dbEx = .error "BSONError" := by
  have h := C1_invalidId_before_persistence "xyz" dbEx
    { title := none, category := none, text := none, isPublished := none }
    none (some "hi") aid1 gid1 0 (by decide)
  exact ⟨by decide, h.1, h.2.2.2.2.2.2.2 (by decide) (by decide)⟩

/-- C1 counterexample: `createComment` (`postNewComment`) does not validate
identifiers at all — at the malformed post identifier `"xyz"` (with text
passing validation) it throws instead of responding 400 with InvalidId. -/
theorem C1_createComment_counterexample :
    postNewComment "xyz" aid1 (some "hi") gid1 0 dbEx = .error "BSONError"
    ∧ ¬ ∃ resp db2, postNewComment "xyz" aid1 (some "hi") gid1 0 dbEx = .ok (resp, db2)
        ∧ resp.status = 400 := by
  constructor
  · decide
  · rintro ⟨resp, db2, hok, -⟩
    rw [show postNewComment "xyz" aid1 (some "hi") gid1 0 dbEx = .error "BSONError" from by decide] at hok
    exact Except.noConfusion hok

/-- C2: creating a comment for post P (valid identifiers, passing text,
both writes succeeding) increments P.commentCount by exactly 1 and leaves
every other post unchanged; deleting the comment decrements its parent's
commentCount by exactly 1 and leaves every other post unchanged; and no
other handler changes any stored post's commentCount (for deletePost,
under the persistence service's guarantee that stored `_id`s are
unique). -/
theorem C2_commentCount_maintenance :
    (∀ pid cid text gen now db P, objectIdIsValid pid = true → objectIdIsValid cid = true →
      commentTextError (rawField text) = false → findPost pid db = some P →
      ∃ resp db2, postNewComment pid cid text gen now db = .ok (resp, db2)
        ∧ resp.status = 201
        ∧ findPost pid db2 = some (incCommentCount 1 P)
        ∧ (∀ id2, id2 ≠ pid → findPost id2 db2 = findPost id2 db))
    ∧ (∀ cid db C P, objectIdIsValid cid = true → findComment cid db = some C →
        findPost C.post db = some P →
        ∃ db2, deleteComment cid db = ({ status := 204, body := .comment C }, db2)
          ∧ findPost C.post db2 = some (incCommentCount (-1) P)
          ∧ (∀ id2, id2 ≠ C.post → findPost id2 db2 = findPost id2 db))
    ∧ (∀ db, preservesCommentCounts db (getAllPosts db).2)
    ∧ (∀ id db, preservesCommentCounts db (getSpecificPost id db).2)
    ∧ (∀ b gen now db, preservesCommentCounts db (postNewPost b gen now db).2)
    ∧ (∀ pid b db, preservesCommentCounts db (editPost pid b db).2)
    ∧ (∀ pid pub db, preservesCommentCounts db (publishPost pid pub db).2)
    ∧ (∀ pid db, (db.posts.map Post._id).Nodup → preservesCommentCounts db (deletePost pid db).2)
    ∧ (∀ p r db, preservesCommentCounts db (getAllComments p r db).2)
    ∧ (∀ id db, preservesCommentCounts db (getSpecificComment id db).2)
    ∧ (∀ id text db, preservesCommentCounts db (editComment id text db).2) :=
  ⟨postNewComment_increments, deleteComment_decrements, frame_getAllPosts,
    frame_getSpecificPost, frame_postNewPost, frame_editPost, frame_publishPost,
    frame_deletePost, frame_getAllComments, frame_getSpecificComment, frame_editComment⟩

/-- C2 witness: the concrete store `dbEx` (post with commentCount 3): a
created comment takes it to 4; deleting the stored comment takes it
to 2. -/
theorem C2_commentCount_witness :
    (∃ resp db2, postNewComment pid1 aid1 (some "hi") gid1 9 dbEx = .ok (resp, db2)
      ∧ resp.status = 201 ∧ findPost pid1 db2 = some (incCommentCount 1 postEx))
    ∧ (∃ db2, deleteComment cid1 dbEx = ({ status := 204, body := .comment commentEx }, db2)
      ∧ findPost pid1 db2 = some (incCommentCount (-1) postEx)) := by
  constructor
  · obtain ⟨resp, db2, h1, h2, h3, -⟩ :=
      C2_commentCount_maintenance.1 pid1 aid1 (some "hi") gid1 9 dbEx postEx
        (by decide) (by decide) (by decide) (by decide)
    exact ⟨resp, db2, h1, h2, h3⟩
  · obtain ⟨db2, h1, h2, -⟩ :=
      C2_commentCount_maintenance.2.1 cid1 dbEx commentEx postEx
        (by decide) (by decide) (by decide)
    exact ⟨db2, h1, h2⟩

/-- C3: after the text field passes validation (and the two ObjectId
constructions succeed), `postNewComment` responds 201 with the populated
comment if and only if both `comment.save()` and the parent post's
`$inc` update produced a result.  In this sequential model `save()`
always resolves to the saved document (its failures throw), so the
conjunction reduces to the `findOneAndUpdate` result being non-null; when
the update produced no result the response is 500 with the generic
database-update error (and the comment is still inserted — the
acknowledged consistency gap). -/
theorem C3_createComment_response (pid cid : String) (text : Option String) (gen : String)
    (now : Nat) (db : DB)
    (hpid : objectIdIsValid pid = true) (hcid : objectIdIsValid cid = true)
    (htext : commentTextError (rawField text) = false) :
    ((∃ db2 pc, postNewComment pid cid text gen now db
        = .ok ({ status := 201, body := .popComment pc }, db2))
      ↔ ((some (newCommentDoc pid cid text gen now) : Option Comment) ≠ none
          ∧ (updateFirst Post._id pid (incCommentCount 1) db.posts).1 ≠ none))
    ∧ ((updateFirst Post._id pid (incCommentCount 1) db.posts).1 = none →
        ∃ db2, postNewComment pid cid text gen now db
          = .ok ({ status := 500, body := DATABASE_UPDATE_ERROR }, db2))
    ∧ (∀ P, findPost pid db = some P →
        ∃ db2, postNewComment pid cid text gen now db
          = .ok ({ status := 201,
                   body := .popComment (populateCommenter db2 (newCommentDoc pid cid text gen now)) },
                 db2)) := by
  have hfst := updateFirst_fst Post._id pid (incCommentCount 1) db.posts
  cases hfind : findPost pid db with
  | none =>
    have hr1 : (updateFirst Post._id pid (incCommentCount 1) db.posts).1 = none := by
      rw [hfst]
      simp only [findPost] at hfind
      rw [hfind]
      rfl
    have hEq : postNewComment pid cid text gen now db
        = .ok ({ status := 500, body := DATABASE_UPDATE_ERROR },
               { posts := (updateFirst Post._id pid (incCommentCount 1) db.posts).2,
                 comments := db.comments ++ [newCommentDoc pid cid text gen now],
                 authors := db.authors }) := by
      simp [postNewComment, htext, hcid, hpid, hr1]
    refine ⟨?_, fun _ => ⟨_, hEq⟩, fun P hP => Option.noConfusion hP⟩
    constructor
    · rintro ⟨db2, pc, h⟩
      rw [hEq] at h
      simp [DATABASE_UPDATE_ERROR] at h
    · rintro ⟨-, hinc⟩
      exact absurd hr1 hinc
  | some P =>
    have hr1 : (updateFirst Post._id pid (incCommentCount 1) db.posts).1
        = some (incCommentCount 1 P) := by
      rw [hfst]
      simp only [findPost] at hfind
      rw [hfind]
      rfl
    have hEq : postNewComment pid cid text gen now db
        = .ok ({ status := 201,
                 body := .popComment (populateCommenter
                   { posts := (updateFirst Post._id pid (incCommentCount 1) db.posts).2,
                     comments := db.comments ++ [newCommentDoc pid cid text gen now],
                     authors := db.authors } (newCommentDoc pid cid text gen now)) },
               { posts := (updateFirst Post._id pid (incCommentCount 1) db.posts).2,
                 comments := db.comments ++ [newCommentDoc pid cid text gen now],
                 authors := db.authors }) := by
      simp [postNewComment, htext, hcid, hpid, hr1]
    refine ⟨⟨fun _ => ⟨?_, ?_⟩, fun _ => ⟨_, _, hEq⟩⟩, ?_, fun Q hQ => ⟨_, hEq⟩⟩
    · simp
    · rw [hr1]
      simp
    · intro hnone
      rw [hr1] at hnone
      exact Option.noConfusion hnone

/-- C3 witness: concrete instances — on `dbEx` (parent post present) the
response is 201; the 500 branch is exercised against the empty store. -/
theorem C3_createComment_witness :
    (∃ db2 pc, postNewComment pid1 aid1 (some "hi") gid1 9 dbEx
        = .ok ({ status := 201, body := .popComment pc }, db2))
    ∧ (∃ db2, postNewComment pid1 aid1 (some "hi") gid1 9 { posts := [], comments := [], authors := [] }
        = .ok ({ status := 500, body := DATABASE_UPDATE_ERROR }, db2)) := by
  constructor
  · exact (C3_createComment_response pid1 aid1 (some "hi") gid1 9 dbEx
      (by decide) (by decide) (by decide)).1.2 ⟨by decide, by decide⟩
  · exact (C3_createComment_response pid1 aid1 (some "hi") gid1 9
      { posts := [], comments := [], authors := [] }
      (by decide) (by decide) (by decide)).2.1 (by decide)

/-- C4: for an existing post and an edit request whose provided fields pass
validation, `editPost` stores and returns the merged document: the four
mutable fields take the provided (pipeline-transformed) values, falling
back to the stored value when omitted, while identifier, author, timestamp
and commentCount are preserved; no other post and no other collection is
touched. -/
theorem C4_editPost_merge (pid : String) (b : PostFormBody) (db : DB) (existing : Post)
    (hpid : objectIdIsValid pid = true)
    (herr : editPostErrors b = [])
    (hfind : findPost pid db = some existing) :
    ∃ db2, editPost pid b db = ({ status := 200, body := .post (mergePostEdits existing b) }, db2)
      ∧ (mergePostEdits existing b).title = (b.title.map sanitizeTitle).getD existing.title
      ∧ (mergePostEdits existing b).category = (b.category.map sanitizeCategory).getD existing.category
      ∧ (mergePostEdits existing b).text = (b.text.map sanitizeArticleText).getD existing.text
      ∧ (mergePostEdits existing b).isPublished = (b.isPublished.map sanitizeIsPublished).getD existing.isPublished
      ∧ (mergePostEdits existing b)._id = existing._id
      ∧ (mergePostEdits existing b).author = existing.author
      ∧ (mergePostEdits existing b).timestamp = existing.timestamp
      ∧ (mergePostEdits existing b).commentCount = existing.commentCount
      ∧ findPost pid db2 = some (mergePostEdits existing b)
      ∧ (∀ id2, id2 ≠ pid → findPost id2 db2 = findPost id2 db)
      ∧ db2.comments = db.comments ∧ db2.authors = db.authors := by
  have hkey : existing._id = pid := by
    simp only [findPost] at hfind
    exact findByKey_some_key Post._id pid db.posts existing hfind
  have hf : ∀ a, Post._id a = pid → Post._id (mergePostEdits existing b) = Post._id a :=
    fun a ha => by
      rw [show (mergePostEdits existing b)._id = existing._id from rfl, hkey, ha]
  have hEq : editPost pid b db
      = ({ status := 200, body := .post (mergePostEdits existing b) },
         { posts := (updateFirst Post._id pid (fun _ => mergePostEdits existing b) db.posts).2,
           comments := db.comments, authors := db.authors }) := by
    simp [editPost, hpid, herr, hfind]
  refine ⟨_, hEq, rfl, rfl, rfl, rfl, rfl, rfl, rfl, rfl, ?_, ?_, rfl, rfl⟩
  · simp only [findPost]
    rw [findByKey_updateFirst_self Post._id pid (fun _ => mergePostEdits existing b) db.posts hf]
    simp only [findPost] at hfind
    rw [hfind]
    rfl
  · intro id2 hne
    simp only [findPost]
    exact findByKey_updateFirst_other Post._id pid id2 (fun _ => mergePostEdits existing b) db.posts hf hne

/-- C4 witness: the spec's example — editing the stored post with only
`{title: "New"}` preserves category, text, isPublished, timestamp, author,
identifier and commentCount. -/
theorem C4_editPost_witness :
    ∃ db2, editPost pid1 { title := some "New", category := none, text := none, isPublished := none } dbEx
        = ({ status := 200,
             body := .post (mergePostEdits postEx
               { title := some "New", category := none, text := none, isPublished := none }) }, db2)
      ∧ (mergePostEdits postEx
          { title := some "New", category := none, text := none, isPublished := none }).category
          = postEx.category
      ∧ (mergePostEdits postEx
          { title := some "New", category := none, text := none, isPublished := none }).commentCount
          = postEx.commentCount := by
  obtain ⟨db2, h1, -, h2, -, -, -, -, -, h3, -, -, -, -⟩ :=
    C4_editPost_merge pid1 { title := some "New", category := none, text := none, isPublished := none }
      dbEx postEx (by decide) (by decide) (by decide)
  exact ⟨db2, h1, h2, h3⟩

/-- C5: `publishPost` responds 400 InvalidId on a malformed identifier
(whatever the publish flag is), 400 InvalidQuery on a well-formed
identifier with a flag other than the literal strings "true"/"false", 404
when both inputs are valid but the post is absent, and otherwise stores
and returns the post with only `isPublished` replaced, all other posts and
collections untouched. -/
theorem C5_publishPost_contract (pid : String) (pub : Option String) (db : DB) :
    (objectIdIsValid pid = false →
      publishPost pid pub db = ({ status := 400, body := .error INVALID_ID }, db))
    ∧ (objectIdIsValid pid = true → pub ≠ some "true" → pub ≠ some "false" →
        publishPost pid pub db = ({ status := 400, body := .error INVALID_QUERY }, db))
    ∧ (objectIdIsValid pid = true → (pub = some "true" ∨ pub = some "false") →
        findPost pid db = none →
        publishPost pid pub db = ({ status := 404, body := .error DOES_NOT_EXIST }, db))
    ∧ (∀ P, objectIdIsValid pid = true → (pub = some "true" ∨ pub = some "false") →
        findPost pid db = some P →
        ∃ db2, publishPost pid pub db
            = ({ status := 200, body := .post { P with isPublished := pub == some "true" } }, db2)
          ∧ findPost pid db2 = some { P with isPublished := pub == some "true" }
          ∧ (∀ id2, id2 ≠ pid → findPost id2 db2 = findPost id2 db)
          ∧ db2.comments = db.comments ∧ db2.authors = db.authors) := by
  refine ⟨?_, ?_, ?_, ?_⟩
  · intro h
    simp [publishPost, h]
  · intro h1 h2 h3
    simp [publishPost, h1, beq_iff_eq, h2, h3]
  · intro h1 hpub hnone
    have hnone2 : findByKey Post._id pid db.posts = none := hnone
    have hcond : (!objectIdIsValid pid || !(pub == some "true" || pub == some "false")) = false := by
      rcases hpub with h | h <;> subst h <;> simp [h1]
    have hr1 : (updateFirst Post._id pid (fun p => { p with isPublished := pub == some "true" }) db.posts).1 = none := by
      rw [updateFirst_fst, hnone2]
      rfl
    have hr2 : (updateFirst Post._id pid (fun p => { p with isPublished := pub == some "true" }) db.posts).2 = db.posts :=
      updateFirst_snd_none Post._id pid _ db.posts hnone2
    unfold publishPost
    simp only [hcond, Bool.false_eq_true, if_false, hr1, hr2]
  · intro P h1 hpub hfind
    have hfind2 : findByKey Post._id pid db.posts = some P := hfind
    have hcond : (!objectIdIsValid pid || !(pub == some "true" || pub == some "false")) = false := by
      rcases hpub with h | h <;> subst h <;> simp [h1]
    have hr1 : (updateFirst Post._id pid (fun p => { p with isPublished := pub == some "true" }) db.posts).1
        = some { P with isPublished := pub == some "true" } := by
      rw [updateFirst_fst, hfind2]
      rfl
    have hEq : publishPost pid pub db
        = ({ status := 200, body := .post { P with isPublished := pub == some "true" } },
           { posts := (updateFirst Post._id pid (fun p => { p with isPublished := pub == some "true" }) db.posts).2,
             comments := db.comments, authors := db.authors }) := by
      unfold publishPost
      simp only [hcond, Bool.false_eq_true, if_false, hr1]
    refine ⟨_, hEq, ?_, ?_, rfl, rfl⟩
    · simp only [findPost]
      rw [findByKey_updateFirst_self Post._id pid
        (fun p => { p with isPublished := pub == some "true" }) db.posts (fun a _ => rfl)]
      rw [hfind2]
      rfl
    · intro id2 hne
      simp only [findPost]
      exact findByKey_updateFirst_other Post._id pid id2
        (fun p => { p with isPublished := pub == some "true" }) db.posts (fun a _ => rfl) hne

/-- C5 witness: the spec's examples on the stored post —
`publishPost(id, "true")` returns the post with isPublished set, and
`publishPost(id, "maybe")` returns 400 InvalidQuery. -/
theorem C5_publishPost_witness :
    (∃ db2, publishPost pid1 (some "true") dbEx
        = ({ status := 200, body := .post { postEx with isPublished := true } }, db2))
    ∧ publishPost pid1 (some "maybe") dbEx
        = ({ status := 400, body := .error INVALID_QUERY }, dbEx) := by
  constructor
  · obtain ⟨db2, h1, -⟩ :=
      (C5_publishPost_contract pid1 (some "true") dbEx).2.2.2 postEx
        (by decide) (Or.inl rfl) (by decide)
    exact ⟨db2, h1⟩
  · exact (C5_publishPost_contract pid1 (some "maybe") dbEx).2.1
      (by decide) (by decide) (by decide)

/-- C6: whenever validation fails on a create or edit request (for the edit
handlers, after their identifier check passes), the handler responds with a
200-status body carrying the non-empty error array and the store is
unchanged; in particular an empty title yields the "Title must not be
empty" entry. -/
theorem C6_validation_failure_no_persistence (b : PostFormBody) (gen : String) (now : Nat)
    (db : DB) (id pid cid : String) (text : Option String) :
    (postNewPostErrors b ≠ [] →
      postNewPost b gen now db
        = ({ status := 200, body := .validationErrors (postNewPostErrors b) }, db))
    ∧ (objectIdIsValid id = true → editPostErrors b ≠ [] →
        editPost id b db
          = ({ status := 200, body := .validationErrors (editPostErrors b) }, db))
    ∧ (commentTextError (rawField text) = true →
        postNewComment pid cid text gen now db
          = .ok ({ status := 200, body := .validationErrors ["Comment cannot be empty"] }, db))
    ∧ (objectIdIsValid id = true → commentTextError (rawField text) = true →
        editComment id text db
          = ({ status := 200, body := .validationErrors ["Comment cannot be empty"] }, db))
    ∧ "Title must not be empty"
        ∈ postNewPostErrors { title := some "", category := some "html", text := some "x", isPublished := none } := by
  refine ⟨?_, ?_, ?_, ?_, by decide⟩
  · intro h
    simp [postNewPost, h]
  · intro hid h
    simp [editPost, hid, h]
  · intro h
    simp [postNewComment, h]
  · intro hid h
    simp [editComment, hid, h]

/-- C6 witness: an empty title on create-Post returns the error array and
leaves the store unchanged; an all-whitespace text on edit-Comment does
the same. -/
theorem C6_validation_failure_witness :
    postNewPost { title := some "", category := some "html", text := some "x", isPublished := none }
        gid1 0 dbEx
      = ({ status := 200, body := .validationErrors ["Title must not be empty"] }, dbEx)
    ∧ editComment cid1 (some "  ") dbEx
      = ({ status := 200, body := .validationErrors ["Comment cannot be empty"] }, dbEx) := by
  have h := C6_validation_failure_no_persistence
    { title := some "", category := some "html", text := some "x", isPublished := none }
    gid1 0 dbEx cid1 pid1 aid1 (some "  ")
  exact ⟨h.1 (by decide), h.2.2.2.1 (by decide) (by decide)⟩

/-- C8: in both `postNewPost` and `editPost`, the stored `isPublished` is
`true` exactly when the trimmed, lower-cased, escaped form of the provided
value is the literal string "yes"; any other value — the string "true"
included — maps to `false`. -/
theorem C8_isPublished_selection (v : String) (gen : String) (now : Nat) (db : DB) :
    (∃ db2 p, postNewPost { title := some "T", category := some "html", text := some "x", isPublished := some v }
          gen now db
        = ({ status := 200, body := .post p }, db2)
      ∧ p.isPublished = (escapeString (jsToLower (jsTrim v)) == "yes"))
    ∧ (∃ db2 merged, editPost pid1 { title := none, category := none, text := none, isPublished := some v } dbEx
        = ({ status := 200, body := .post merged }, db2)
      ∧ merged.isPublished = (escapeString (jsToLower (jsTrim v)) == "yes"))
    ∧ sanitizeIsPublished "true" = false
    ∧ sanitizeIsPublished "yes" = true := by
  refine ⟨?_, ?_, by decide, by decide⟩
  · have herr : postNewPostErrors { title := some "T", category := some "html", text := some "x", isPublished := some v } = [] := rfl
    have hEq : postNewPost { title := some "T", category := some "html", text := some "x", isPublished := some v } gen now db
        = ({ status := 200,
             body := .post
               { _id := gen, author := "65068c32be2fd5ade9800662", title := sanitizeTitle "T",
                 timestamp := now, category := sanitizeCategory "html", text := sanitizeArticleText "x",
                 isPublished := sanitizeIsPublished v, commentCount := 0 } },
           { posts := db.posts ++
               [{ _id := gen, author := "65068c32be2fd5ade9800662", title := sanitizeTitle "T",
                  timestamp := now, category := sanitizeCategory "html", text := sanitizeArticleText "x",
                  isPublished := sanitizeIsPublished v, commentCount := 0 }],
             comments := db.comments, authors := db.authors }) := by
      simp [postNewPost, herr, rawField]
    exact ⟨_, _, hEq, rfl⟩
  · have hv : objectIdIsValid pid1 = true := by decide
    have herr : editPostErrors { title := none, category := none, text := none, isPublished := some v } = [] := rfl
    have hfind : findPost pid1 dbEx = some postEx := by decide
    have hEq : editPost pid1 { title := none, category := none, text := none, isPublished := some v } dbEx
        = ({ status := 200,
             body := .post (mergePostEdits postEx { title := none, category := none, text := none, isPublished := some v }) },
           { posts := (updateFirst Post._id pid1
               (fun _ => mergePostEdits postEx { title := none, category := none, text := none, isPublished := some v })
               dbEx.posts).2,
             comments := dbEx.comments, authors := dbEx.authors }) := by
      simp [editPost, hv, herr, hfind]
    exact ⟨_, _, hEq, rfl⟩

/-- C10: the edit-comment pipeline trims, asserts non-emptiness and strips
script tags but does not HTML-escape, while the create-comment pipeline
escapes the same text before script-stripping; hence an edited comment can
store characters such as '<' and '&' unescaped where a created comment
stores their entities. -/
theorem C10_editComment_no_escape (t : String) (now : Nat)
    (ht : commentTextError t = false) :
    (∃ db2, editComment cid1 (some t) dbEx
        = ({ status := 200, body := .comment (mergeCommentEdit commentEx (some t)) }, db2)
      ∧ (mergeCommentEdit commentEx (some t)).text = removeDangerousScriptTags (jsTrim t))
    ∧ (∃ resp db2, postNewComment pid1 aid1 (some t) gid1 now dbEx = .ok (resp, db2)
        ∧ db2.comments = dbEx.comments ++ [newCommentDoc pid1 aid1 (some t) gid1 now]
        ∧ (newCommentDoc pid1 aid1 (some t) gid1 now).text
            = removeDangerousScriptTags (escapeString (jsTrim t)))
    ∧ sanitizeEditCommentText "a < b & c" = "a < b & c"
    ∧ sanitizeNewCommentText "a < b & c" = "a &lt; b &amp; c" := by
  refine ⟨?_, ?_, by decide, by decide⟩
  · have hv : objectIdIsValid cid1 = true := by decide
    have hfind : findComment cid1 dbEx = some commentEx := by decide
    have hEq : editComment cid1 (some t) dbEx
        = ({ status := 200, body := .comment (mergeCommentEdit commentEx (some t)) },
           { posts := dbEx.posts,
             comments := (updateFirst Comment._id cid1
               (fun _ => mergeCommentEdit commentEx (some t)) dbEx.comments).2,
             authors := dbEx.authors }) := by
      simp [editComment, hv, rawField, ht, hfind]
    exact ⟨_, hEq, rfl⟩
  · have hcid : objectIdIsValid aid1 = true := by decide
    have hpid : objectIdIsValid pid1 = true := by decide
    have hr1 : (updateFirst Post._id pid1 (incCommentCount 1) dbEx.posts).1
        = some (incCommentCount 1 postEx) := by decide
    have hEq : postNewComment pid1 aid1 (some t) gid1 now dbEx
        = .ok ({ status := 201,
                 body := .popComment (populateCommenter
                   { posts := (updateFirst Post._id pid1 (incCommentCount 1) dbEx.posts).2,
                     comments := dbEx.comments ++ [newCommentDoc pid1 aid1 (some t) gid1 now],
                     authors := dbEx.authors } (newCommentDoc pid1 aid1 (some t) gid1 now)) },
               { posts := (updateFirst Post._id pid1 (incCommentCount 1) dbEx.posts).2,
                 comments := dbEx.comments ++ [newCommentDoc pid1 aid1 (some t) gid1 now],
                 authors := dbEx.authors }) := by
      simp [postNewComment, rawField, ht, hcid, hpid, hr1]
    exact ⟨_, _, hEq, rfl, rfl⟩

/-- C10 witness: the concrete text `"a < b & c"` — stored verbatim by
edit-comment, stored escaped by create-comment. -/
theorem C10_editComment_witness :
    (∃ db2, editComment cid1 (some "a < b & c") dbEx
        = ({ status := 200, body := .comment (mergeCommentEdit commentEx (some "a < b & c")) }, db2)
      ∧ (mergeCommentEdit commentEx (some "a < b & c")).text
          = removeDangerousScriptTags (jsTrim "a < b & c"))
    ∧ sanitizeNewCommentText "a < b & c" = "a &lt; b &amp; c" := by
  have h := C10_editComment_no_escape "a < b & c" 0 (by decide)
  exact ⟨h.1, h.2.2.2⟩

theorem splitOnNewline_cons (c : Char) (cs : List Char) :
    splitOnNewline (c :: cs)
      = if c = '\n' then [] :: splitOnNewline cs
        else match splitOnNewline cs with
          | [] => [[c]]
          | p :: ps => (c :: p) :: ps := rfl

theorem collapseNewlineRuns_cons2 (c1 c2 : Char) (rest : List Char) :
    collapseNewlineRuns (c1 :: c2 :: rest)
      = if c1 = '\n' && c2 = '\n' then collapseNewlineRuns (c2 :: rest)
        else c1 :: collapseNewlineRuns (c2 :: rest) := rfl

theorem splitOnNewline_ne_nil (cs : List Char) : splitOnNewline cs ≠ [] := by
  cases cs with
  | nil => simp [splitOnNewline]
  | cons c cs =>
    rw [splitOnNewline_cons]
    split
    · simp
    · split <;> simp

theorem splitOnNewline_exists_cons (cs : List Char) :
    ∃ p ps, splitOnNewline cs = p :: ps := by
  cases h : splitOnNewline cs with
  | nil => exact absurd h (splitOnNewline_ne_nil cs)
  | cons p ps => exact ⟨p, ps, rfl⟩

theorem splitOnNewline_cons_nl (cs : List Char) :
    splitOnNewline ('\n' :: cs) = [] :: splitOnNewline cs := by
  rw [splitOnNewline_cons, if_pos rfl]

theorem splitOnNewline_cons_ne (c : Char) (cs : List Char) (hc : c ≠ '\n')
    (q : List Char) (qs : List (List Char)) (hl : splitOnNewline cs = q :: qs) :
    splitOnNewline (c :: cs) = (c :: q) :: qs := by
  rw [splitOnNewline_cons, if_neg hc, hl]

theorem joinWithNewline_cons_cons (c : Char) (p : List Char) (ps : List (List Char)) :
    joinWithNewline ((c :: p) :: ps) = c :: joinWithNewline (p :: ps) := by
  cases ps <;> rfl

theorem joinWithNewline_splitOnNewline (cs : List Char) :
    joinWithNewline (splitOnNewline cs) = cs := by
  induction cs with
  | nil => rfl
  | cons c cs ih =>
    obtain ⟨p, ps, hl⟩ := splitOnNewline_exists_cons cs
    by_cases hc : c = '\n'
    · subst hc
      rw [splitOnNewline_cons_nl, hl]
      show '\n' :: joinWithNewline (p :: ps) = '\n' :: cs
      rw [← hl, ih]
    · rw [splitOnNewline_cons_ne c cs hc p ps hl, joinWithNewline_cons_cons, ← hl, ih]

theorem no_newline_in_splitOnNewline (cs : List Char) (p : List Char)
    (hp : p ∈ splitOnNewline cs) : '\n' ∉ p := by
  induction cs generalizing p with
  | nil =>
    simp [splitOnNewline] at hp
    subst hp
    simp
  | cons c cs ih =>
    by_cases hc : c = '\n'
    · subst hc
      rw [splitOnNewline_cons_nl] at hp
      rcases List.mem_cons.1 hp with h | h
      · subst h; simp
      · exact ih p h
    · obtain ⟨q, qs, hl⟩ := splitOnNewline_exists_cons cs
      rw [splitOnNewline_cons_ne c cs hc q qs hl] at hp
      rcases List.mem_cons.1 hp with h | h
      · subst h
        intro hmem
        rcases List.mem_cons.1 hmem with h2 | h2
        · exact hc h2.symm
        · exact ih q (hl ▸ List.mem_cons_self q qs) h2
      · exact ih p (hl ▸ List.mem_cons_of_mem q h)

theorem mem_of_mem_splitOnNewline (cs : List Char) (p : List Char) (x : Char)
    (hp : p ∈ splitOnNewline cs) (hx : x ∈ p) : x ∈ cs := by
  induction cs generalizing p with
  | nil =>
    simp [splitOnNewline] at hp
    subst hp
    simp at hx
  | cons c cs ih =>
    by_cases hc : c = '\n'
    · subst hc
      rw [splitOnNewline_cons_nl] at hp
      rcases List.mem_cons.1 hp with h | h
      · subst h; simp at hx
      · exact List.mem_cons_of_mem _ (ih p h hx)
    · obtain ⟨q, qs, hl⟩ := splitOnNewline_exists_cons cs
      rw [splitOnNewline_cons_ne c cs hc q qs hl] at hp
      rcases List.mem_cons.1 hp with h | h
      · subst h
        rcases List.mem_cons.1 hx with h2 | h2
        · exact h2 ▸ List.mem_cons_self c cs
        · exact List.mem_cons_of_mem _ (ih q (hl ▸ List.mem_cons_self q qs) h2)
      · exact List.mem_cons_of_mem _ (ih p (hl ▸ List.mem_cons_of_mem q h) hx)

theorem mem_of_mem_collapseNewlineRuns (cs : List Char) (x : Char)
    (hx : x ∈ collapseNewlineRuns cs) : x ∈ cs := by
  induction cs using collapseNewlineRuns.induct with
  | case1 => simp [collapseNewlineRuns] at hx
  | case2 c => simpa [collapseNewlineRuns] using hx
  | case3 c1 c2 rest hcond ih =>
    rw [collapseNewlineRuns_cons2, if_pos hcond] at hx
    exact List.mem_cons_of_mem _ (ih hx)
  | case4 c1 c2 rest hcond ih =>
    rw [collapseNewlineRuns_cons2, if_neg (by simpa using hcond)] at hx
    rcases List.mem_cons.1 hx with h | h
    · exact h ▸ List.mem_cons_self c1 _
    · exact List.mem_cons_of_mem _ (ih h)

theorem collapseNewlineRuns_filter (cs : List Char) :
    (collapseNewlineRuns cs).filter (fun c => c ≠ '\n') = cs.filter (fun c => c ≠ '\n') := by
  induction cs using collapseNewlineRuns.induct with
  | case1 => rfl
  | case2 c => rfl
  | case3 c1 c2 rest hcond ih =>
    rw [collapseNewlineRuns_cons2, if_pos hcond, ih]
    have h2 := hcond
    simp only [Bool.and_eq_true, decide_eq_true_eq] at h2
    obtain ⟨hc1, hc2⟩ := h2
    subst hc1
    subst hc2
    rw [List.filter_cons, List.filter_cons]
    simp
  | case4 c1 c2 rest hcond ih =>
    rw [collapseNewlineRuns_cons2, if_neg (by simpa using hcond)]
    rw [List.filter_cons, List.filter_cons, ih]

theorem collapseNewlineRuns_head (c : Char) (rest : List Char) (hc : c ≠ '\n') :
    ∃ tl, collapseNewlineRuns (c :: rest) = c :: tl := by
  cases rest with
  | nil => exact ⟨[], rfl⟩
  | cons c3 r =>
    refine ⟨collapseNewlineRuns (c3 :: r), ?_⟩
    rw [collapseNewlineRuns_cons2, if_neg (by simp [hc])]

theorem collapseNewlineRuns_chain (cs : List Char) :
    List.Chain' (fun a b => ¬(a = '\n' ∧ b = '\n')) (collapseNewlineRuns cs) := by
  induction cs using collapseNewlineRuns.induct with
  | case1 => simp [collapseNewlineRuns]
  | case2 c => simp [collapseNewlineRuns]
  | case3 c1 c2 rest hcond ih =>
    rw [collapseNewlineRuns_cons2, if_pos hcond]
    exact ih
  | case4 c1 c2 rest hcond ih =>
    rw [collapseNewlineRuns_cons2, if_neg (by simpa using hcond)]
    rw [List.chain'_cons']
    refine ⟨?_, ih⟩
    intro y hy
    by_cases hc1 : c1 = '\n'
    · subst hc1
      have hc2 : c2 ≠ '\n' := by
        intro h2
        simp [h2] at hcond
      obtain ⟨tl, htl⟩ := collapseNewlineRuns_head c2 rest hc2
      rw [htl] at hy
      simp at hy
      subst hy
      intro hcontra
      exact hc2 hcontra.2
    · intro hcontra
      exact hc1 hcontra.1

/-- C7: the paragraph-conversion sanitizer removes every carriage-return,
collapses every run of newlines into a single newline (no two adjacent
newlines survive, and no non-newline character is lost), and splits on
newline (joining the paragraphs with single newlines recovers the
collapsed string, and no paragraph contains a CR or a newline); on the
spec's example it yields ["a", "b", "c"]. -/
theorem C7_paragraph_conversion (s : String) :
    convertToArrayOfParagraphs "a\r\n\n\nb\nc" = ["a", "b", "c"]
    ∧ (∀ p, p ∈ convertToArrayOfParagraphs s →
        ∀ c, c ∈ p.toList → c ≠ '\r' ∧ c ≠ '\n')
    ∧ joinWithNewline ((convertToArrayOfParagraphs s).map String.toList)
        = collapseNewlineRuns (removeCarriageReturns s.toList)
    ∧ List.Chain' (fun a b => ¬(a = '\n' ∧ b = '\n'))
        (collapseNewlineRuns (removeCarriageReturns s.toList))
    ∧ (collapseNewlineRuns (removeCarriageReturns s.toList)).filter (fun c => c ≠ '\n')
        = (removeCarriageReturns s.toList).filter (fun c => c ≠ '\n') := by
  refine ⟨by decide, ?_, ?_, collapseNewlineRuns_chain _, collapseNewlineRuns_filter _⟩
  · intro p hp c hc
    simp only [convertToArrayOfParagraphs] at hp
    obtain ⟨q, hq, hpq⟩ := List.mem_map.1 hp
    have hcq : c ∈ q := by
      rw [← hpq] at hc
      exact hc
    constructor
    · intro hcr
      have h1 : c ∈ collapseNewlineRuns (removeCarriageReturns s.toList) :=
        mem_of_mem_splitOnNewline _ q c hq hcq
      have h2 : c ∈ removeCarriageReturns s.toList :=
        mem_of_mem_collapseNewlineRuns _ c h1
      have h3 := (List.mem_filter.1 h2).2
      rw [hcr] at h3
      simp at h3
    · intro hcn
      have := no_newline_in_splitOnNewline _ q hq
      rw [hcn] at hcq
      exact this hcq
  · simp only [convertToArrayOfParagraphs, List.map_map]
    rw [show String.toList ∘ String.mk = id from rfl, List.map_id]
    exact joinWithNewline_splitOnNewline _

/-- C7 witness: a character of a converted paragraph of `"x\ry"` is neither
a CR nor a newline, and the spec's example evaluates as claimed. -/
theorem C7_paragraph_conversion_witness :
    ('x' ≠ '\r' ∧ 'x' ≠ '\n')
    ∧ convertToArrayOfParagraphs "a\r\n\n\nb\nc" = ["a", "b", "c"] := by
  have h := C7_paragraph_conversion "x\ry"
  exact ⟨h.2.1 "xy" (by decide) 'x' (by decide), h.1⟩

/-- C9 (code bug): `getAllComments` populates the commenter reference with
the select string "username -_id", but the Author model defines only the
path `name`; consequently the expanded commenter of the stored comment is
the empty projection — it does not contain the Author's display name
"Alice" (the identifier is indeed suppressed, vacuously: nothing at all is
included). -/
theorem C9_commenter_projection_empty :
    (getAllComments none none dbEx).1
      = { status := 200,
          body := .popComments [{ _id := cid1, commenter := some [], post := pid1, timestamp := 7,
                                  text := "hi", replies := [] }] }
    ∧ selectUsernameNoId (Author.toDoc authorEx) = []
    ∧ authorEx.name = "Alice" := by decide
